import Mathlib

/-!
Verification development for `scripts/run_llm_trials.py` of the
Spatial-Lab (PSYCH 256) repository: a shallow embedding, in Lean 4, of the
trial-execution and result-normalization pipeline (trial discovery, answer
normalization, defensive JSON parsing of model output, the per-trial runner
loop, and the append-only report writer), together with theorems settling
the specification's claims about it.

Conventions of the embedding:
* Python strings are modelled as `List Char` (abbreviated `Str`).
* Python runtime values that flow through the pipeline (the results of
  `json.loads`, metadata contents, model replies) are modelled by the
  inductive `Json`; Python numbers are modelled as rationals `ℚ`
  (IEEE-754 artifacts such as `inf`/`nan` are outside the model).
* Fallible Python code (anything that can raise) is modelled in
  `Except Str`, the error string standing for `str(exc)`.
* Wall-clock time is modelled abstractly: each external call reports the
  number of milliseconds it consumed, and pure in-process steps are given
  an abstract cost parameter, so that *which* steps fall inside a timed
  bracket is faithfully represented even though real durations are not.
-/

set_option maxRecDepth 100000

namespace SpatialLab

/-- Python strings, modelled as lists of characters. -/
abbrev Str := List Char

/-- Model of Python runtime values as produced by `json.loads` and carried
in trial metadata: `null`/`bool`/number/string/list/dict.  Numbers are
modelled as rationals. -/
inductive Json where
  | null : Json
  | bool (b : Bool) : Json
  | num (q : ℚ) : Json
  | str (s : Str) : Json
  | arr (elems : List Json) : Json
  | obj (fields : List (Str × Json)) : Json
deriving Repr

/-! ### Python string builtins -/

/-- Characters stripped by Python's `str.strip()` (ASCII whitespace). -/
def isPySpace (c : Char) : Bool :=
  c = ' ' || c = '\t' || c = '\n' || c = '\r' || c = '\x0b' || c = '\x0c'

/-- Python `str.lstrip()`. -/
def pyLstrip (s : Str) : Str := s.dropWhile isPySpace

/-- Python `str.rstrip()`. -/
def pyRstrip (s : Str) : Str := (s.reverse.dropWhile isPySpace).reverse

/-- Python `str.strip()`. -/
def pyStrip (s : Str) : Str := pyLstrip (pyRstrip s)

/-- Python `str.upper()` (ASCII). -/
def pyUpper (s : Str) : Str := s.map Char.toUpper

/-- Python `str.lower()` (ASCII). -/
def pyLower (s : Str) : Str := s.map Char.toLower

/-- The backtick character (written by code point to keep source plain). -/
def tickChar : Char := Char.ofNat 96

/-- The three-backtick code-fence marker. -/
def ticks : Str := [tickChar, tickChar, tickChar]

/-- Python `s.split("```")`: split on every occurrence of the
three-backtick separator; never returns an empty list.  (A string shorter
than the separator contains no occurrence and is a single block.) -/
def splitTicks : Str → List Str
  | c1 :: c2 :: c3 :: rest =>
    if c1 = tickChar ∧ c2 = tickChar ∧ c3 = tickChar then
      [] :: splitTicks rest
    else
      match splitTicks (c2 :: c3 :: rest) with
      | [] => [[c1]]
      | hd :: tl => (c1 :: hd) :: tl
  | s => [s]

/-- Python `"<sep>".join(parts)` with a one-character separator. -/
def joinWith (sep : Char) : List Str → Str
  | [] => []
  | [x] => x
  | x :: y :: rest => x ++ sep :: joinWith sep (y :: rest)

/-- Python `str.split()` with no argument: split on whitespace runs,
dropping empty pieces. -/
def pyWords (s : Str) : List Str :=
  (List.splitOnP isPySpace s).filter (· ≠ [])

/-! ### A model of `json.loads`

A strict recursive-descent JSON parser over `Str`, mirroring Python's
`json.loads` (JSON whitespace, strict number grammar, escape sequences in
strings, `Extra data` on trailing content).  Recursion is bounded by a
fuel parameter amply larger than the input length. -/

/-- JSON insignificant whitespace. -/
def isJsonWs (c : Char) : Bool :=
  c = ' ' || c = '\t' || c = '\n' || c = '\r'

/-- Skip JSON whitespace. -/
def skipWs (s : Str) : Str := s.dropWhile isJsonWs

/-- Hexadecimal digit test. -/
def isHexDig (c : Char) : Bool :=
  c.isDigit || ('a' ≤ c && c ≤ 'f') || ('A' ≤ c && c ≤ 'F')

/-- Value of a hexadecimal digit. -/
def hexVal (c : Char) : Nat :=
  if c.isDigit then c.toNat - 48
  else if 'a' ≤ c && c ≤ 'f' then c.toNat - 87
  else c.toNat - 55

/-- Parse the body of a JSON string literal (after the opening quote),
returning the decoded content and the remaining input. -/
def parseStringBody : Str → Except Str (Str × Str)
  | [] => .error "Unterminated string starting at".data
  | '"' :: rest => .ok ([], rest)
  | '\\' :: '"' :: r => (fun p : Str × Str => ('"' :: p.1, p.2)) <$> parseStringBody r
  | '\\' :: '\\' :: r => (fun p : Str × Str => ('\\' :: p.1, p.2)) <$> parseStringBody r
  | '\\' :: '/' :: r => (fun p : Str × Str => ('/' :: p.1, p.2)) <$> parseStringBody r
  | '\\' :: 'b' :: r => (fun p : Str × Str => ('\x08' :: p.1, p.2)) <$> parseStringBody r
  | '\\' :: 'f' :: r => (fun p : Str × Str => ('\x0c' :: p.1, p.2)) <$> parseStringBody r
  | '\\' :: 'n' :: r => (fun p : Str × Str => ('\n' :: p.1, p.2)) <$> parseStringBody r
  | '\\' :: 'r' :: r => (fun p : Str × Str => ('\r' :: p.1, p.2)) <$> parseStringBody r
  | '\\' :: 't' :: r => (fun p : Str × Str => ('\t' :: p.1, p.2)) <$> parseStringBody r
  | '\\' :: 'u' :: h1 :: h2 :: h3 :: h4 :: r =>
    if isHexDig h1 && isHexDig h2 && isHexDig h3 && isHexDig h4 then
      let code := hexVal h1 * 4096 + hexVal h2 * 256 + hexVal h3 * 16 + hexVal h4
      (fun p : Str × Str => (Char.ofNat code :: p.1, p.2)) <$> parseStringBody r
    else .error "Invalid \\uXXXX escape".data
  | '\\' :: _ => .error "Invalid \\escape".data
  | c :: rest => (fun p : Str × Str => (c :: p.1, p.2)) <$> parseStringBody rest

/-- Numeric value of a digit string. -/
def digitsToNat (ds : Str) : Nat :=
  ds.foldl (fun a c => a * 10 + (c.toNat - 48)) 0

/-- Parse an optional sign, returning the sign and the rest. -/
def parseSign (s : Str) : Int × Str :=
  match s with
  | '+' :: r => (1, r)
  | '-' :: r => (-1, r)
  | r => (1, r)

/-- Assemble a rational from integer digits, fraction digits and a signed
decimal exponent. -/
def assembleRat (sg : Int) (ip : Str) (fp : Str) (ex : Int) : ℚ :=
  ((sg : ℚ) * ((digitsToNat ip : ℚ) + (digitsToNat fp : ℚ) / ((10 : ℚ) ^ fp.length)))
    * (10 : ℚ) ^ ex

/-- Parse a JSON number token (strict grammar: optional `-`, no leading
zeros, mandatory digits around `.`, optional exponent). -/
def parseNumberTok (s : Str) : Except Str (Json × Str) :=
  let (neg, s1) := match s with
    | '-' :: r => ((-1 : Int), r)
    | r => ((1 : Int), r)
  let ip := s1.takeWhile Char.isDigit
  let s2 := s1.dropWhile Char.isDigit
  if ip = [] then .error "Expecting value".data
  else if 1 < ip.length ∧ ip.headI = '0' then .error "Expecting value".data
  else
    let step : Except Str (Str × Str) :=
      match s2 with
      | '.' :: r =>
        let fp := r.takeWhile Char.isDigit
        if fp = [] then .error "Expecting value".data
        else .ok (fp, r.dropWhile Char.isDigit)
      | r => .ok ([], r)
    match step with
    | .error e => .error e
    | .ok (fp, s3) =>
      match s3 with
      | 'e' :: r =>
        let (es, r1) := parseSign r
        let ed := r1.takeWhile Char.isDigit
        if ed = [] then .error "Expecting value".data
        else .ok (Json.num (assembleRat neg ip fp (es * digitsToNat ed)), r1.dropWhile Char.isDigit)
      | 'E' :: r =>
        let (es, r1) := parseSign r
        let ed := r1.takeWhile Char.isDigit
        if ed = [] then .error "Expecting value".data
        else .ok (Json.num (assembleRat neg ip fp (es * digitsToNat ed)), r1.dropWhile Char.isDigit)
      | _ => .ok (Json.num (assembleRat neg ip fp 0), s3)

/-- Insert a key/value pair into an object's field list the way a Python
dict does: overwrite in place if the key exists, else append. -/
def upsert (kvs : List (Str × Json)) (k : Str) (v : Json) : List (Str × Json) :=
  match kvs with
  | [] => [(k, v)]
  | (k', v') :: rest => if k' = k then (k', v) :: rest else (k', v') :: upsert rest k v

/-- What the recursive-descent parser is currently parsing: a value, the
items of an array (with the items parsed so far), or the members of an
object (with the members parsed so far).  A single mode-indexed function
keeps the recursion structural in the fuel. -/
inductive PMode where
  | value : PMode
  | arrItems (acc : List Json) : PMode
  | objItems (acc : List (Str × Json)) : PMode

/-- The recursive-descent JSON parser, fuel-bounded and structural in the
fuel.  In `value` mode it parses one JSON value; in `arrItems`/`objItems`
mode it parses the remaining comma-separated elements of an array/object. -/
def parseJ : Nat → PMode → Str → Except Str (Json × Str)
  | 0, _, _ => .error "recursion limit".data
  | fuel + 1, .value, s =>
    match skipWs s with
    | [] => .error "Expecting value".data
    | 'n' :: 'u' :: 'l' :: 'l' :: rest => .ok (Json.null, rest)
    | 't' :: 'r' :: 'u' :: 'e' :: rest => .ok (Json.bool true, rest)
    | 'f' :: 'a' :: 'l' :: 's' :: 'e' :: rest => .ok (Json.bool false, rest)
    | '"' :: rest =>
      (match parseStringBody rest with
       | .error e => .error e
       | .ok (content, rest') => .ok (Json.str content, rest'))
    | '[' :: rest =>
      (match skipWs rest with
       | ']' :: rest' => .ok (Json.arr [], rest')
       | _ => parseJ fuel (.arrItems []) rest)
    | '{' :: rest =>
      (match skipWs rest with
       | '}' :: rest' => .ok (Json.obj [], rest')
       | _ => parseJ fuel (.objItems []) rest)
    | other => parseNumberTok other
  | fuel + 1, .arrItems acc, s =>
    match parseJ fuel .value s with
    | .error e => .error e
    | .ok (v, rest) =>
      match skipWs rest with
      | ',' :: rest' => parseJ fuel (.arrItems (acc ++ [v])) rest'
      | ']' :: rest' => .ok (Json.arr (acc ++ [v]), rest')
      | _ => .error "Expecting delimiter".data
  | fuel + 1, .objItems acc, s =>
    match skipWs s with
    | '"' :: rest =>
      (match parseStringBody rest with
       | .error e => .error e
       | .ok (key, rest1) =>
         match skipWs rest1 with
         | ':' :: rest2 =>
           (match parseJ fuel .value rest2 with
            | .error e => .error e
            | .ok (v, rest3) =>
              match skipWs rest3 with
              | ',' :: rest4 => parseJ fuel (.objItems (upsert acc key v)) rest4
              | '}' :: rest4 => .ok (Json.obj (upsert acc key v), rest4)
              | _ => .error "Expecting delimiter".data)
         | _ => .error "Expecting colon".data)
    | _ => .error "Expecting property name".data

/-- Model of Python's `json.loads`: parse one JSON value and require only
whitespace to follow. -/
def json_loads (s : Str) : Except Str Json :=
  match parseJ (2 * s.length + 2) .value s with
  | .error e => .error e
  | .ok (v, rest) => if skipWs rest = [] then .ok v else .error "Extra data".data

/-! ### Python value helpers (`str()`, `float()`, truthiness, `dict.get`) -/

/-- Rendering of a number under Python `str()`.  Integral values render as
their digits; non-integral values are rendered as `num/den` (an
abbreviation of Python's decimal float rendering — no verified claim
depends on the rendering of a non-integral number). -/
def ratRepr (q : ℚ) : Str :=
  if q.den = 1 then (toString q.num).data
  else (toString q.num).data ++ ['/'] ++ (toString (q.den : Int)).data

/-- Model of Python `str()` on the values that flow through the pipeline.
Scalar cases are exact (`str(None) = "None"`, `str(True) = "True"`,
strings render as themselves); list/dict rendering is abbreviated to a
bracket placeholder — no verified claim depends on it. -/
def pyStr : Json → Str
  | .null => "None".data
  | .bool true => "True".data
  | .bool false => "False".data
  | .num q => ratRepr q
  | .str s => s
  | .arr _ => "[...]".data
  | .obj _ => "\x7b...\x7d".data

/-- Python truthiness of a value. -/
def pyTruthy : Json → Bool
  | .null => false
  | .bool b => b
  | .num q => decide (q ≠ 0)
  | .str s => !s.isEmpty
  | .arr xs => !xs.isEmpty
  | .obj kvs => !kvs.isEmpty

/-- Python `v.get(key)`: on a dict, the value at `key` (or `None` when the
key is missing); on any other value, raises `AttributeError`. -/
def jGet (v : Json) (key : Str) : Except Str Json :=
  match v with
  | .obj kvs => .ok ((kvs.lookup key).getD Json.null)
  | _ => .error ("AttributeError: object has no attribute get".data)

/-- Python `v.get(key, default)`. -/
def jGetD (v : Json) (key : Str) (d : Json) : Except Str Json :=
  match v with
  | .obj kvs => .ok ((kvs.lookup key).getD d)
  | _ => .error ("AttributeError: object has no attribute get".data)

/-- Python `v[key]` on a dict: `KeyError` when missing, `TypeError` on a
non-dict. -/
def jIndex (v : Json) (key : Str) : Except Str Json :=
  match v with
  | .obj kvs =>
    match kvs.lookup key with
    | some x => .ok x
    | none => .error ("KeyError: ".data ++ key)
  | _ => .error "TypeError: value is not subscriptable".data

/-- Model of Python `float(str)`: strip whitespace, optional sign, digits
with an optional fraction part and an optional decimal exponent.  (The
IEEE-754 special spellings `inf`/`nan` and digit underscores are outside
the rational model and are rejected here.) -/
def strToRat (s : Str) : Option ℚ :=
  let t := pyStrip s
  let (sg, t1) := parseSign t
  let ip := t1.takeWhile Char.isDigit
  let r1 := t1.dropWhile Char.isDigit
  match r1 with
  | '.' :: r2 =>
    let fp := r2.takeWhile Char.isDigit
    let r3 := r2.dropWhile Char.isDigit
    if ip = [] ∧ fp = [] then none
    else
      match r3 with
      | [] => some (assembleRat sg ip fp 0)
      | e :: r4 =>
        if e = 'e' ∨ e = 'E' then
          let (es, r5) := parseSign r4
          let ed := r5.takeWhile Char.isDigit
          if ed = [] ∨ r5.dropWhile Char.isDigit ≠ [] then none
          else some (assembleRat sg ip fp (es * digitsToNat ed))
        else none
  | [] => if ip = [] then none else some (assembleRat sg ip [] 0)
  | e :: r2 =>
    if ip ≠ [] ∧ (e = 'e' ∨ e = 'E') then
      let (es, r3) := parseSign r2
      let ed := r3.takeWhile Char.isDigit
      if ed = [] ∨ r3.dropWhile Char.isDigit ≠ [] then none
      else some (assembleRat sg ip [] (es * digitsToNat ed))
    else none

/-- Model of Python `float(val)` over pipeline values: numbers pass
through, booleans coerce to 0/1, numeric strings parse, everything else
raises `TypeError`/`ValueError`. -/
def pyFloat : Json → Except Str ℚ
  | .null => .error "TypeError: float() argument must be a string or a real number".data
  | .bool b => .ok (if b then 1 else 0)
  | .num q => .ok q
  | .str s =>
    match strToRat s with
    | some q => .ok q
    | none => .error "ValueError: could not convert string to float".data
  | .arr _ => .error "TypeError: float() argument must be a string or a real number".data
  | .obj _ => .error "TypeError: float() argument must be a string or a real number".data

/-! ### `parse_json_response` and the answer normalizers -/

/-- The brace-narrowing stage of `parse_json_response`
(run_llm_trials.py:164-165): narrow to the span from the first opening
brace to the last closing brace when both occur, else leave unchanged. -/
def narrowBraces (cleaned : Str) : Str :=
  if cleaned.contains '{' && cleaned.contains '}' then
    let i := cleaned.findIdx (· = '{')
    let j := cleaned.length - 1 - cleaned.reverse.findIdx (· = '}')
    (cleaned.drop i).take (j + 1 - i)
  else cleaned

/-- The language-tag stage of `parse_json_response`
(run_llm_trials.py:162-163): drop a leading case-insensitive `json` tag
from the fenced block and re-strip. -/
def dropJsonTag (cleaned : Str) : Str :=
  if "json".data.isPrefixOf (pyLower cleaned) then pyStrip (cleaned.drop 4)
  else cleaned

/-- The fenced-block stage of `parse_json_response`
(run_llm_trials.py:159-163): take `blocks[1]` of the split on the fence
marker when it exists, strip it, and drop an optional language tag. -/
def takeFenceBlock (cleaned : Str) : Str :=
  let blocks := splitTicks cleaned
  dropJsonTag (pyStrip (if 1 < blocks.length then blocks.getD 1 cleaned else cleaned))

/-- The fence-stripping stage of `parse_json_response`
(run_llm_trials.py:157-163). -/
def stripFences (text : Str) : Str :=
  let cleaned := pyStrip text
  if ticks.isPrefixOf cleaned then takeFenceBlock cleaned
  else cleaned

/-- Embedding of `parse_json_response` (run_llm_trials.py:156-166): strip
the text; if it starts with a triple-backtick fence, take the first
fenced block and drop an optional leading `json` language tag; narrow to
the span between the first opening brace and the last closing brace when
both occur; then parse as JSON. -/
def parse_json_response (text : Str) : Except Str Json :=
  json_loads (narrowBraces (stripFences text))

/-- Embedding of `normalize_answer` (run_llm_trials.py:169-173): `None`
maps to absent; otherwise the value's string form is stripped and
uppercased and must be one of `A`, `B`, `C`. -/
def normalize_answer (val : Json) : Option Str :=
  match val with
  | .null => none
  | v =>
    let ans := pyUpper (pyStrip (pyStr v))
    if ans = "A".data ∨ ans = "B".data ∨ ans = "C".data then some ans else none

/-- Embedding of `normalize_confidence` (run_llm_trials.py:176-183):
`None` maps to absent; otherwise attempt `float()` coercion, mapping
failure to absent and clamping success into `[0, 100]`. -/
def normalize_confidence (val : Json) : Option ℚ :=
  match val with
  | .null => none
  | v =>
    match pyFloat v with
    | .error _ => none
    | .ok q => some (max 0 (min 100 q))

/-! ### Data model: `TrialAssets`, `TrialResult`, `ModelRun` -/

/-- Embedding of the `TrialAssets` dataclass (run_llm_trials.py:55-62).
Image payloads are `(mime, base64)` pairs; the raw bytes are represented
by their base64 encoding. -/
structure TrialAssets where
  label : Str
  condition : Str
  correct_answer : Str
  ref_front : Str × Str
  ref_back : Str × Str
  candidates : List (Str × (Str × Str))
deriving Repr

/-- Embedding of the `TrialResult` dataclass (run_llm_trials.py:65-79). -/
structure TrialResult where
  trial_label : Str
  condition : Str
  gold : Str
  prediction : Option Str
  confidence : Option ℚ
  reasoning : Str
  latency_ms : Option Nat
  success : Bool
  error : Option Str
deriving Repr

/-- The `is_correct` property of `TrialResult` (run_llm_trials.py:77-79):
`self.success and self.prediction == self.gold`. -/
def TrialResult.is_correct (r : TrialResult) : Bool :=
  r.success && r.prediction == some r.gold

/-- Embedding of the `ModelRun` dataclass (run_llm_trials.py:82-95). -/
structure ModelRun where
  name : Str
  model_id : Str
  results : List TrialResult
deriving Repr

/-- Embedding of `ModelRun.accuracy` (run_llm_trials.py:88-91). -/
def ModelRun.accuracy (run : ModelRun) : ℚ :=
  if run.results.isEmpty then 0
  else ((run.results.filter TrialResult.is_correct).length : ℚ) / (run.results.length : ℚ)

/-- Embedding of `ModelRun.avg_confidence` (run_llm_trials.py:93-95): mean of the
present confidence values, absent when none is present. -/
def ModelRun.avg_confidence (run : ModelRun) : Option ℚ :=
  let vals := run.results.filterMap TrialResult.confidence
  if vals.isEmpty then none else some (vals.sum / (vals.length : ℚ))

/-! ### The trial runner (`run_trials`)

A runner (the `runner(trial)` callable) is modelled as a function from a
trial to the outcome of the adapter call — `Except` of the parsed reply —
paired with the number of milliseconds of wall-clock time the call
consumed, which is what `time.time()` bracketing observes. -/

/-- The body of the `try` block of `run_trials` after the adapter call
returned (run_llm_trials.py:299-301): extract and normalize `answer`,
`confidence` and `reasoning` from the parsed reply.  Any raise inside —
e.g. `raw.get` on a non-dict reply — escapes to the handler. -/
def trialBody (raw : Json) : Except Str (Option Str × Option ℚ × Str) := do
  let rawAnswer ← jGet raw "answer".data
  let answer := normalize_answer rawAnswer
  let rawConfidence ← jGet raw "confidence".data
  let confidence := normalize_confidence rawConfidence
  let rawReasoning ← jGetD raw "reasoning".data (Json.str [])
  let reasoning := pyStrip (pyStr rawReasoning)
  return (answer, confidence, reasoning)

/-- The whole fallible part of one loop iteration: the adapter call
followed by field extraction/normalization — everything the `try` block
of `run_trials` covers. -/
def trialTry (outcome : Except Str Json) :
    Except Str (Option Str × Option ℚ × Str) :=
  match outcome with
  | .error e => .error e
  | .ok raw => trialBody raw

/-- One iteration of the loop in `run_trials` (run_llm_trials.py:294-329):
run the adapter on one trial inside `try`, recording a successful or a
failed `TrialResult`; `latency_ms` is the elapsed time of the adapter
call in either case. -/
def runOneTrial (runner : TrialAssets → Except Str Json × Nat)
    (trial : TrialAssets) : TrialResult :=
  let (outcome, elapsed) := runner trial
  match trialTry outcome with
  | .ok (answer, confidence, reasoning) =>
    { trial_label := trial.label
      condition := trial.condition
      gold := trial.correct_answer
      prediction := answer
      confidence := confidence
      reasoning := reasoning
      latency_ms := some elapsed
      success := decide (answer = some "A".data ∨ answer = some "B".data ∨
                         answer = some "C".data)
      error := none }
  | .error e =>
    { trial_label := trial.label
      condition := trial.condition
      gold := trial.correct_answer
      prediction := none
      confidence := none
      reasoning := []
      latency_ms := some elapsed
      success := false
      error := some e }

/-- Embedding of `run_trials` (run_llm_trials.py:292-330).  `model_id`
stands for `getattr(runner, "model_id", name)`, which the function-valued
runner model carries separately. -/
def run_trials (name : Str) (model_id : Str)
    (runner : TrialAssets → Except Str Json × Nat)
    (trials : List TrialAssets) : ModelRun :=
  { name := name, model_id := model_id, results := trials.map (runOneTrial runner) }

/-! ### The chat-completions adapter (`OpenAIStyleRunner.__call__`)

The provider client (`client.chat.completions.create`) is modelled as a
function from the presence of the `response_format` parameter (the only
parameter `__call__` varies between its two attempts) to the outcome —
`Except` of the raw message text — paired with the call's elapsed
milliseconds.  `parseMs` is the abstract wall-clock cost of
`parse_json_response`, which runs inside `__call__` and therefore inside
the caller's timing bracket. -/

/-- Embedding of `OpenAIStyleRunner.__call__` (run_llm_trials.py:222-244)
with its timing made explicit: first attempt with `response_format` set
iff `json_mode`; on any exception, retry exactly once without
`response_format` when `json_mode` is set, else re-raise; finally parse
the message text.  The second component is the total elapsed time a
caller's `time.time()` bracket observes. -/
def openaiCallTimed (create : Bool → Except Str Str × Nat)
    (json_mode : Bool) (parseMs : Nat) (_trial : TrialAssets) :
    Except Str Json × Nat :=
  match create json_mode with
  | (.ok msg, t) => (parse_json_response msg, t + parseMs)
  | (.error e, t) =>
    if json_mode then
      match create false with
      | (.ok msg, t2) => (parse_json_response msg, t + t2 + parseMs)
      | (.error e2, t2) => (.error e2, t + t2)
    else (.error e, t)

/-! ### Trial discovery (`discover_trials`)

The filesystem under the trials root is modelled by the list of paths
`rglob("Metadata.json")` enumerates (in arbitrary order, before the
`sorted` call normalizes it) together with a content map from path to
file payload: JSON text for metadata files, the base64 image payload for
image files, `none` for a missing file. -/

/-- The filesystem as `discover_trials` observes it. -/
structure FS where
  metaPaths : List Str
  content : Str → Option Str

/-- Model of `Path.parent`: drop the final path component. -/
def pathParent (p : Str) : Str :=
  ((p.reverse.dropWhile (· ≠ '/')).drop 1).reverse

/-- Path join of a directory and a file name. -/
def pathJoin (dir name : Str) : Str := dir ++ ['/'] ++ name

/-- Model of `str(p.relative_to(root))` for a path below the root. -/
def relativeTo (root p : Str) : Str :=
  if (root ++ ['/'] : Str).isPrefixOf p then p.drop (root.length + 1) else p

/-- Model of the MIME guess `mimetypes.guess_type(...)[0] or "image/jpeg"`: every asset the
loader reads is a `.jpg`, for which the guess is `image/jpeg` (also the
fallback). -/
def guessMime (_p : Str) : Str := "image/jpeg".data

/-- Embedding of `read_image` (run_llm_trials.py:112-115): MIME type from
the file name plus the file's (base64-encoded) bytes; a missing file
raises `FileNotFoundError`. -/
def read_image (fs : FS) (p : Str) : Except Str (Str × Str) :=
  match fs.content p with
  | some payload => .ok (guessMime p, payload)
  | none => .error ("FileNotFoundError: ".data ++ p)

/-- The `condition` string built at run_llm_trials.py:125-126:
`config = meta.get("config", {})` followed by the
`"shape | complexity | magnitude"` f-string. -/
def conditionOf (meta : Json) : Except Str Str := do
  let config ← jGetD meta "config".data (Json.obj [])
  let shape ← jGetD config "shape".data (Json.str "?".data)
  let complexity ← jGetD config "complexity".data (Json.str "?".data)
  let magnitude ← jGetD config "magnitude".data (Json.str "?".data)
  return pyStr shape ++ " | ".data ++ pyStr complexity ++ " | ".data ++ pyStr magnitude

/-- The targets list `meta.get("targets", [])` as a list to iterate (iterating a non-list
raises; Python would raise `AttributeError` at `t.get` at the latest). -/
def targetsOf (meta : Json) : Except Str (List Json) := do
  match ← jGetD meta "targets".data (Json.arr []) with
  | .arr xs => return xs
  | _ => throw "TypeError: targets is not iterable".data

/-- The generator `next((t["id"] for t in targets if t.get("is_correct")),
None)` at run_llm_trials.py:128: the id of the first target whose
`is_correct` is truthy, `none` when no target qualifies. -/
def findCorrectTarget : List Json → Except Str (Option Json)
  | [] => .ok none
  | t :: rest => do
    let flag ← jGet t "is_correct".data
    if pyTruthy flag then
      return some (← jIndex t "id".data)
    else
      findCorrectTarget rest

/-- The per-metadata-file body of the `discover_trials` loop
(run_llm_trials.py:121-150): load the metadata JSON, build the condition
string, locate the correct target (raising when there is none), read the
five sibling images, and assemble the `TrialAssets`. -/
def processMeta (fs : FS) (root : Str) (mf : Str) : Except Str TrialAssets := do
  let text ← match fs.content mf with
    | some t => Except.ok t
    | none => Except.error ("FileNotFoundError: ".data ++ mf)
  let meta ← json_loads text
  let condition ← conditionOf meta
  let targets ← targetsOf meta
  let correct_target ← match ← findCorrectTarget targets with
    | some v => Except.ok v
    | none => Except.error ("No correct target found in ".data ++ mf)
  let trial_dir := pathParent mf
  let ref_front ← read_image fs (pathJoin trial_dir "1_Reference_Front.jpg".data)
  let ref_back ← read_image fs (pathJoin trial_dir "2_Reference_Back.jpg".data)
  let candA ← read_image fs (pathJoin trial_dir "3_Target_A.jpg".data)
  let candB ← read_image fs (pathJoin trial_dir "3_Target_B.jpg".data)
  let candC ← read_image fs (pathJoin trial_dir "3_Target_C.jpg".data)
  let label := relativeTo root trial_dir
  return { label := label
           condition := condition
           correct_answer := pyUpper (pyStr correct_target)
           ref_front := ref_front
           ref_back := ref_back
           candidates := [("A".data, candA), ("B".data, candB), ("C".data, candC)] }

/-- The cap test `max_trials is not None and len(trials) >= max_trials`
(run_llm_trials.py:151), checked after appending a trial. -/
def capReached (max_trials : Option Nat) (count : Nat) : Bool :=
  match max_trials with
  | some m => m ≤ count
  | none => false

/-- The `discover_trials` loop over the sorted metadata files;
`count` is the number of trials accumulated so far (the `len(trials)` of
the imperative loop). -/
def discoverGo (fs : FS) (root : Str) (max_trials : Option Nat) :
    List Str → Nat → Except Str (List TrialAssets)
  | [], _ => .ok []
  | mf :: rest, count => do
    let t ← processMeta fs root mf
    if capReached max_trials (count + 1) then
      return [t]
    else
      let ts ← discoverGo fs root max_trials rest (count + 1)
      return (t :: ts)

/-- Lexicographic sort of paths: `sorted(trials_root.rglob(...))` (a
stable sort under the total lexicographic order on path strings). -/
def sortPaths (l : List Str) : List Str :=
  l.insertionSort (· ≤ ·)

/-- Embedding of `discover_trials` (run_llm_trials.py:118-153). -/
def discover_trials (fs : FS) (root : Str) (max_trials : Option Nat) :
    Except Str (List TrialAssets) :=
  discoverGo fs root max_trials (sortPaths fs.metaPaths) 0

/-! ### The report writer (`append_report`) -/

/-- Fixed-point rendering with one decimal digit, as the f-string format spec .1f does,
round-half-to-even (the values formatted by the report are non-negative). -/
def formatFixed1 (q : ℚ) : Str :=
  let scaled := q * 10
  let fl : Int := ⌊scaled⌋
  let n : Int :=
    if scaled - fl < 1/2 then fl
    else if 1/2 < scaled - fl then fl + 1
    else if fl % 2 = 0 then fl else fl + 1
  (if n < 0 then ['-'] else []) ++
    (toString (n.natAbs / 10)).data ++ ['.'] ++ (toString (n.natAbs % 10)).data

/-- Percent rendering with one decimal digit, as the f-string format spec .1% does. -/
def formatPercent1 (q : ℚ) : Str := formatFixed1 (q * 100) ++ ['%']

/-- The notes cell of a report row (run_llm_trials.py:358-360):
`res.error or res.reasoning`, whitespace collapsed, `|` escaped. -/
def noteCell (r : TrialResult) : Str :=
  let note := match r.error with
    | some e => if e.isEmpty then r.reasoning else e
    | none => r.reasoning
  let note := joinWith ' ' (pyWords note) |>.flatMap fun c =>
    if c = '|' then ['\\', '|'] else [c]
  note

/-- One table row of the report (run_llm_trials.py:355-364). -/
def reportRow (r : TrialResult) : Str :=
  let confCell := match r.confidence with
    | some q => formatFixed1 q
    | none => ['-']
  let statusCell :=
    if r.is_correct then "OK".data
    else if r.success then "WRONG".data else "ERROR".data
  let predCell := match r.prediction with
    | some p => if p.isEmpty then ['-'] else p
    | none => ['-']
  "| ".data ++ r.trial_label ++ " | ".data ++ r.condition ++ " | ".data ++
    r.gold ++ " | ".data ++ predCell ++ " | ".data ++ confCell ++ " | ".data ++
    statusCell ++ " | ".data ++ noteCell r ++ " |".data

/-- The section lines contributed by one model run
(run_llm_trials.py:343-365). -/
def runSection (run : ModelRun) : List Str :=
  let total := run.results.length
  let correct := (run.results.filter TrialResult.is_correct).length
  let summary := "- Accuracy: ".data ++ (toString correct).data ++ ['/'] ++
    (toString total).data ++ " (".data ++ formatPercent1 run.accuracy ++ ")".data
  let confLine := match run.avg_confidence with
    | some q => ["- Avg confidence (where provided): ".data ++ formatFixed1 q]
    | none => []
  ["### ".data ++ run.name ++ " (".data ++ run.model_id ++ ")".data, summary] ++
    confLine ++
    [[], "| Trial | Condition | Gold | Pred | Conf | Status | Notes |".data,
     "| --- | --- | --- | --- | --- | --- | --- |".data] ++
    run.results.map reportRow ++ [[]]

/-- The document header written when the report file does not exist yet
(run_llm_trials.py:338-339). -/
def reportHeader : Str :=
  "# LLM Trait Testing Results\n\nThis file is auto-appended by scripts/run_llm_trials.py.\n\n".data

/-- Embedding of `append_report` (run_llm_trials.py:333-367) as a pure
function from the prior file content (`none` when the file does not
exist) to the file content written back.  `timestamp` stands for
`datetime.now().strftime(...)`. -/
def append_report (oldContent : Option Str) (timestamp : Str)
    (runs : List ModelRun) (trials_root : Str) (prompt_note : Str) : Str :=
  let existing := match oldContent with
    | some s => pyRstrip s
    | none => reportHeader
  let sectionList := [existing, "## Run ".data ++ timestamp,
    "- Trials root: ".data ++ trials_root, "- Prompt: ".data ++ prompt_note, []] ++
    runs.flatMap runSection
  pyStrip (joinWith '\n' sectionList) ++ ['\n']

/-! ### Concrete fixtures used by witnesses and counterexamples -/

/-- A minimal concrete trial asset. -/
def trialT0 : TrialAssets :=
  { label := "t1".data
    condition := "cond".data
    correct_answer := "A".data
    ref_front := ("image/jpeg".data, "f".data)
    ref_back := ("image/jpeg".data, "b".data)
    candidates := [("A".data, ("image/jpeg".data, "a".data))] }

/-- A second concrete trial asset. -/
def trialT1 : TrialAssets :=
  { trialT0 with label := "t2".data }

/-- An adapter whose reply parses to a JSON object whose `answer` is not a
valid letter. -/
def runnerNoLetter : TrialAssets → Except Str Json × Nat :=
  fun _ => (.ok (Json.obj [("answer".data, Json.str "D".data)]), 4)

/-- An adapter that always raises. -/
def runnerBoom : TrialAssets → Except Str Json × Nat :=
  fun _ => (.error "boom".data, 7)

/-- A provider call model that succeeds in 5 ms with a parseable reply. -/
def createC7 : Bool → Except Str Str × Nat :=
  fun _ => (.ok "\x7b\"answer\": \"A\"\x7d".data, 5)

/-- A provider call model that fails both with and without structured
output mode. -/
def runnerBoomCreate : Bool → Except Str Str × Nat :=
  fun jm => if jm then (.error "fail1".data, 3) else (.error "fail2".data, 4)

/-- A provider call model that fails with a timeout on the structured-mode
attempt and succeeds without structured mode. -/
def createTimeoutThenOk : Bool → Except Str Str × Nat :=
  fun jm =>
    if jm then (.error "APITimeoutError: Request timed out".data, 3)
    else (.ok "\x7b\"answer\": \"B\"\x7d".data, 4)

/-- Metadata marking target `b` correct (lower-case id, as the dataset
writes it). -/
def metaTextOne : Str :=
  "\x7b\"config\": \x7b\"shape\": \"s\", \"complexity\": \"x\", \"magnitude\": \"m\"\x7d, \"targets\": [\x7b\"id\": \"a\", \"is_correct\": false\x7d, \x7b\"id\": \"b\", \"is_correct\": true\x7d]\x7d".data

/-- Metadata whose correct target has the out-of-range id `z`. -/
def metaTextZ : Str :=
  "\x7b\"config\": \x7b\x7d, \"targets\": [\x7b\"id\": \"z\", \"is_correct\": true\x7d]\x7d".data

/-- Metadata in which no target is flagged correct. -/
def metaTextNoCorrect : Str :=
  "\x7b\"config\": \x7b\x7d, \"targets\": [\x7b\"id\": \"a\", \"is_correct\": false\x7d]\x7d".data

/-- A one-trial directory tree under `Trials/t1` with the given metadata. -/
def oneTrialContent (mt : Str) : Str → Option Str := fun p =>
  if p = "Trials/t1/Metadata.json".data then some mt
  else if p = "Trials/t1/1_Reference_Front.jpg".data then some "F64".data
  else if p = "Trials/t1/2_Reference_Back.jpg".data then some "K64".data
  else if p = "Trials/t1/3_Target_A.jpg".data then some "A64".data
  else if p = "Trials/t1/3_Target_B.jpg".data then some "B64".data
  else if p = "Trials/t1/3_Target_C.jpg".data then some "C64".data
  else none

def fsOne : FS := ⟨["Trials/t1/Metadata.json".data], oneTrialContent metaTextOne⟩

def fsZ : FS := ⟨["Trials/t1/Metadata.json".data], oneTrialContent metaTextZ⟩

def fsNoCorrect : FS :=
  ⟨["Trials/t1/Metadata.json".data], oneTrialContent metaTextNoCorrect⟩

/-- The trial asset `fsOne` discovers. -/
def trialOne : TrialAssets :=
  { label := "t1".data
    condition := "s | x | m".data
    correct_answer := "B".data
    ref_front := ("image/jpeg".data, "F64".data)
    ref_back := ("image/jpeg".data, "K64".data)
    candidates := [("A".data, ("image/jpeg".data, "A64".data)),
                   ("B".data, ("image/jpeg".data, "B64".data)),
                   ("C".data, ("image/jpeg".data, "C64".data))] }

/-! ### Lemmas about the string primitives -/

theorem dropWhile_idem (p : Char → Bool) (l : Str) :
    List.dropWhile p (List.dropWhile p l) = List.dropWhile p l := by
  induction l with
  | nil => rfl
  | cons c t ih =>
    by_cases h : p c = true
    · simpa [List.dropWhile_cons, h] using ih
    · simp [List.dropWhile_cons, h]

theorem pyLstrip_cons_of_not {c : Char} (s : Str) (h : isPySpace c = false) :
    pyLstrip (c :: s) = c :: s := by
  simp [pyLstrip, List.dropWhile_cons, h]

theorem pyLstrip_idem (s : Str) : pyLstrip (pyLstrip s) = pyLstrip s :=
  dropWhile_idem isPySpace s

theorem pyRstrip_eq_nil_iff {s : Str} :
    pyRstrip s = [] ↔ ∀ c ∈ s, isPySpace c = true := by
  simp [pyRstrip, List.dropWhile_eq_nil_iff]

theorem pyLstrip_eq_nil_iff {s : Str} :
    pyLstrip s = [] ↔ ∀ c ∈ s, isPySpace c = true := by
  simp [pyLstrip, List.dropWhile_eq_nil_iff]

theorem pyRstrip_append_of_ne_nil {b : Str} (a : Str) (h : pyRstrip b ≠ []) :
    pyRstrip (a ++ b) = a ++ pyRstrip b := by
  unfold pyRstrip at *
  rw [List.reverse_append, List.dropWhile_append]
  have hne : (List.dropWhile isPySpace b.reverse).isEmpty = false := by
    cases hh : (List.dropWhile isPySpace b.reverse).isEmpty
    · rfl
    · exact absurd (by simp [List.isEmpty_iff.mp hh]) h
  rw [hne]
  simp

theorem pyRstrip_append_ws {c : Char} (a : Str) (h : isPySpace c = true) :
    pyRstrip (a ++ [c]) = pyRstrip a := by
  simp [pyRstrip, List.dropWhile_cons, h]

theorem pyRstrip_idem (s : Str) : pyRstrip (pyRstrip s) = pyRstrip s := by
  simp [pyRstrip, dropWhile_idem]

theorem pyRstrip_cons_of_ne_nil {s : Str} (c : Char) (h : pyRstrip s ≠ []) :
    pyRstrip (c :: s) = c :: pyRstrip s := by
  simpa using pyRstrip_append_of_ne_nil [c] h

theorem pyRstrip_ne_nil_of_mem {s : Str} {c : Char} (hc : c ∈ s)
    (hw : isPySpace c = false) : pyRstrip s ≠ [] := by
  intro h
  exact absurd (pyRstrip_eq_nil_iff.mp h c hc) (by simp [hw])

theorem pyRstrip_decomp (s : Str) :
    ∃ t, s = pyRstrip s ++ t ∧ ∀ c ∈ t, isPySpace c = true := by
  refine ⟨(s.reverse.takeWhile isPySpace).reverse, ?_, ?_⟩
  · show s = pyRstrip s ++ (s.reverse.takeWhile isPySpace).reverse
    rw [pyRstrip, ← List.reverse_append, List.takeWhile_append_dropWhile,
      List.reverse_reverse]
  · intro c hc
    exact List.mem_takeWhile_imp (List.mem_reverse.mp hc)

theorem pyStrip_ne_nil_of_mem {s : Str} {c : Char} (hc : c ∈ s)
    (hw : isPySpace c = false) : pyStrip s ≠ [] := by
  intro h
  obtain ⟨t, hdecomp, ht⟩ := pyRstrip_decomp s
  have hcr : c ∈ pyRstrip s := by
    rcases List.mem_append.mp (hdecomp ▸ hc) with h1 | h1
    · exact h1
    · exact absurd (ht c h1) (by simp [hw])
  exact absurd (pyLstrip_eq_nil_iff.mp h c hcr) (by simp [hw])

theorem pyLstrip_append_of_self {E : Str} (x : Str) (h : pyLstrip E = E)
    (hne : E ≠ []) : pyLstrip (E ++ x) = E ++ x := by
  cases E with
  | nil => exact absurd rfl hne
  | cons c t =>
    have hc : isPySpace c = false := by
      cases hcc : isPySpace c
      · rfl
      · exfalso
        have := h
        simp [pyLstrip, List.dropWhile_cons, hcc] at this
        have hlen := (List.dropWhile_sublist (l := t) (p := isPySpace)).length_le
        rw [this] at hlen
        simp at hlen
    exact pyLstrip_cons_of_not _ hc

theorem pyRstrip_lstrip_of_self {s : Str} (h : pyRstrip s = s) :
    pyRstrip (pyLstrip s) = pyLstrip s := by
  by_cases hnil : pyLstrip s = []
  · simp [hnil, pyRstrip]
  · obtain ⟨w, hw, hws⟩ : ∃ w, s = w ++ pyLstrip s ∧ ∀ c ∈ w, isPySpace c = true := by
      refine ⟨s.takeWhile isPySpace, ?_, fun c hc => List.mem_takeWhile_imp hc⟩
      rw [pyLstrip]
      exact (List.takeWhile_append_dropWhile isPySpace s).symm
    by_cases hr : pyRstrip (pyLstrip s) = []
    · exfalso
      apply hnil
      have hall : ∀ c ∈ s, isPySpace c = true := by
        intro c hc
        rcases List.mem_append.mp (hw ▸ hc) with h1 | h1
        · exact hws c h1
        · exact pyRstrip_eq_nil_iff.mp hr c h1
      have : pyRstrip s = [] := pyRstrip_eq_nil_iff.mpr hall
      rw [h] at this
      simp [this, pyLstrip]
    · have hstep := pyRstrip_append_of_ne_nil (b := pyLstrip s) w hr
      rw [← hw] at hstep
      have h4 : s = w ++ pyRstrip (pyLstrip s) := h.symm.trans hstep
      have h5 : w ++ pyLstrip s = w ++ pyRstrip (pyLstrip s) := hw.symm.trans h4
      exact (List.append_cancel_left h5).symm

theorem pyStrip_of_strip_self {E : Str} (h1 : pyRstrip E = E) (h2 : pyLstrip E = E) :
    pyStrip E = E := by
  rw [pyStrip, h1, h2]

/-! ### Lemmas about `joinWith` and `splitTicks` -/

theorem joinWith_cons_cons (sep : Char) (x y : Str) (l : List Str) :
    joinWith sep (x :: y :: l) = x ++ sep :: joinWith sep (y :: l) := rfl

theorem joinWith_cons_exists (sep : Char) (x : Str) (l : List Str) :
    ∃ r, joinWith sep (x :: l) = x ++ r := by
  cases l with
  | nil => exact ⟨[], by simp [joinWith]⟩
  | cons y rest => exact ⟨sep :: joinWith sep (y :: rest), rfl⟩

theorem ticks_isPrefixOf_append (x : Str) : ticks.isPrefixOf (ticks ++ x) = true := by
  rw [List.isPrefixOf_iff_prefix]
  exact List.prefix_append ticks x

theorem ticks_isPrefixOf_cons_of_ne {c : Char} (x : Str) (h : c ≠ tickChar) :
    ticks.isPrefixOf (c :: x) = false := by
  cases hh : ticks.isPrefixOf (c :: x)
  · rfl
  · exfalso
    have := List.isPrefixOf_iff_prefix.mp hh
    obtain ⟨t, ht⟩ := this
    have : tickChar = c := by
      have := congrArg (List.head? ·) ht
      simpa [ticks] using this
    exact h this.symm

theorem splitTicks_cons_of_ne {c : Char} {rest : Str} (hc : c ≠ tickChar)
    (hlen : 2 ≤ rest.length) :
    splitTicks (c :: rest) =
      match splitTicks rest with
      | [] => [[c]]
      | hd :: tl => (c :: hd) :: tl := by
  match rest, hlen with
  | c2 :: c3 :: rest', _ =>
    rw [splitTicks]
    rw [if_neg (by simp [hc])]

theorem splitTicks_append_ticks {M : Str} (h : tickChar ∉ M) :
    splitTicks (M ++ ticks) = [M, []] := by
  induction M with
  | nil =>
    simp [ticks, splitTicks]
  | cons c M' ih =>
    have hc : c ≠ tickChar := fun hcc => h (hcc ▸ List.mem_cons_self c M')
    have hM' : tickChar ∉ M' := fun hm => h (List.mem_cons_of_mem c hm)
    have hlen : 2 ≤ (M' ++ ticks).length := by simp [ticks]
    rw [List.cons_append, splitTicks_cons_of_ne hc hlen, ih hM']

theorem splitTicks_fenced {M : Str} (h : tickChar ∉ M) :
    splitTicks (ticks ++ M ++ ticks) = [[], M, []] := by
  have h3 : ticks ++ M ++ ticks = tickChar :: tickChar :: tickChar :: (M ++ ticks) := by
    simp [ticks]
  rw [h3, splitTicks]
  rw [if_pos ⟨rfl, rfl, rfl⟩]
  rw [splitTicks_append_ticks h]

/-! ### Determinism of path sorting -/

theorem sortPaths_perm_eq {l₁ l₂ : List Str} (h : l₁.Perm l₂) :
    sortPaths l₁ = sortPaths l₂ := by
  have hs₁ := List.sorted_insertionSort (α := Str) (· ≤ ·) l₁
  have hs₂ := List.sorted_insertionSort (α := Str) (· ≤ ·) l₂
  have hperm : (l₁.insertionSort (· ≤ ·)).Perm (l₂.insertionSort (· ≤ ·)) :=
    ((List.perm_insertionSort (· ≤ ·) l₁).trans h).trans
      (List.perm_insertionSort (· ≤ ·) l₂).symm
  exact List.eq_of_perm_of_sorted hperm hs₁ hs₂

/-! ### Support lemmas for the normalizers and the trial runner -/

theorem ite_some_inj {α : Type} {P : Prop} [Decidable P] {x a : α}
    (h : (if P then some x else none) = some a) : P ∧ a = x := by
  split at h
  · exact ⟨‹P›, (Option.some.inj h).symm⟩
  · cases h

theorem normalize_answer_mem {v : Json} {a : Str} (h : normalize_answer v = some a) :
    a = "A".data ∨ a = "B".data ∨ a = "C".data := by
  cases v with
  | null => cases h
  | bool b => obtain ⟨hc, ha⟩ := ite_some_inj h; subst ha; exact hc
  | num q => obtain ⟨hc, ha⟩ := ite_some_inj h; subst ha; exact hc
  | str s => obtain ⟨hc, ha⟩ := ite_some_inj h; subst ha; exact hc
  | arr xs =>
    rw [show normalize_answer (Json.arr xs) = none from rfl] at h
    cases h
  | obj kvs =>
    rw [show normalize_answer (Json.obj kvs) = none from rfl] at h
    cases h

theorem trialBody_answer {raw : Json} {a : Option Str} {c : Option ℚ} {s : Str}
    (h : trialBody raw = .ok (a, c, s)) :
    a = none ∨ a = some "A".data ∨ a = some "B".data ∨ a = some "C".data := by
  unfold trialBody at h
  cases h1 : jGet raw "answer".data with
  | error e => rw [h1] at h; cases h
  | ok x =>
    rw [h1] at h
    cases h2 : jGet raw "confidence".data with
    | error e => rw [h2] at h; cases h
    | ok y =>
      rw [h2] at h
      cases h3 : jGetD raw "reasoning".data (Json.str []) with
      | error e => rw [h3] at h; cases h
      | ok z =>
        rw [h3] at h
        simp only [bind, Except.bind, pure, Except.pure, Except.ok.injEq,
          Prod.mk.injEq] at h
        cases hn : normalize_answer x with
        | none => exact Or.inl (h.1 ▸ hn ▸ rfl)
        | some w =>
          rw [← h.1, hn]
          rcases normalize_answer_mem hn with h4 | h4 | h4 <;> simp [h4]

theorem runOneTrial_latency (runner : TrialAssets → Except Str Json × Nat)
    (trial : TrialAssets) :
    (runOneTrial runner trial).latency_ms = some (runner trial).2 := by
  rcases hrt : runner trial with ⟨o, tms⟩
  cases ht : trialTry o with
  | error e => simp [runOneTrial, hrt, ht]
  | ok v => obtain ⟨a, c, s⟩ := v; simp [runOneTrial, hrt, ht]

/-- Claim C2: `normalize_confidence` is total (it returns an `Option`
rather than raising), sends non-numeric input — `None` or any value whose
`float()` coercion fails, including non-numeric strings — to absent,
clamps every coercible input into `[0, 100]`, and is idempotent on its
present outputs. -/
theorem normalize_confidence_clamped_idem :
    (normalize_confidence Json.null = none) ∧
    (∀ v e, pyFloat v = .error e → normalize_confidence v = none) ∧
    (∀ v q, pyFloat v = .ok q → normalize_confidence v = some (max 0 (min 100 q))) ∧
    (∀ v q, normalize_confidence v = some q → 0 ≤ q ∧ q ≤ 100) ∧
    (∀ v q, normalize_confidence v = some q →
      normalize_confidence (Json.num q) = some q) := by
  have key_err : ∀ v e, pyFloat v = .error e → normalize_confidence v = none := by
    intro v e h
    cases v <;> simp_all [normalize_confidence, pyFloat]
  have key_ok : ∀ v q, pyFloat v = .ok q →
      normalize_confidence v = some (max 0 (min 100 q)) := by
    intro v q h
    cases v <;> simp_all [normalize_confidence, pyFloat]
  have key_range : ∀ v q, normalize_confidence v = some q → 0 ≤ q ∧ q ≤ 100 := by
    intro v q h
    cases hf : pyFloat v with
    | error e => rw [key_err v e hf] at h; cases h
    | ok x =>
      rw [key_ok v x hf] at h
      have hq := (Option.some.inj h).symm
      subst hq
      exact ⟨le_max_left 0 _, max_le (by norm_num) (min_le_left 100 x)⟩
  refine ⟨rfl, key_err, key_ok, key_range, ?_⟩
  intro v q h
  obtain ⟨h0, h100⟩ := key_range v q h
  have := key_ok (Json.num q) q rfl
  rwa [min_eq_right h100, max_eq_right h0] at this

/-- Witness for C2 at concrete inputs: a non-numeric string is sent to
absent, the numeric string `" 250 "` is clamped into range, and the
clamped output is a fixed point. -/
theorem normalize_confidence_clamped_idem_witness :
    normalize_confidence (Json.str "abc".data) = none ∧
    normalize_confidence (Json.str " 250 ".data) = some 100 ∧
    (0 ≤ (100 : ℚ) ∧ (100 : ℚ) ≤ 100) ∧
    normalize_confidence (Json.num 100) = some 100 := by
  have h250 : pyFloat (Json.str " 250 ".data) = .ok 250 := by with_unfolding_all rfl
  have hsome : normalize_confidence (Json.str " 250 ".data) = some 100 := by
    have := normalize_confidence_clamped_idem.2.2.1 (Json.str " 250 ".data) 250 h250
    rw [this]
    norm_num
  refine ⟨?_, hsome, ?_, ?_⟩
  · exact normalize_confidence_clamped_idem.2.1 (Json.str "abc".data)
      "ValueError: could not convert string to float".data (by with_unfolding_all rfl)
  · exact normalize_confidence_clamped_idem.2.2.2.1 (Json.str " 250 ".data) 100 hsome
  · exact normalize_confidence_clamped_idem.2.2.2.2 (Json.str " 250 ".data) 100 hsome

/-- Claim C6: for every `TrialResult` that `run_trials` produces,
`is_correct` equals `success AND prediction == gold`; a failed result has
no prediction; the `error` field is present exactly when the `try`-block
computation (adapter call plus reply-field extraction) raised; and a
reply that was obtained and parsed but yields no valid letter leaves
`success = false` with `error` absent. -/
theorem trial_result_invariants (runner : TrialAssets → Except Str Json × Nat)
    (trial : TrialAssets) :
    ((runOneTrial runner trial).is_correct =
      ((runOneTrial runner trial).success &&
        ((runOneTrial runner trial).prediction == some (runOneTrial runner trial).gold))) ∧
    ((runOneTrial runner trial).success = false →
      (runOneTrial runner trial).prediction = none) ∧
    (∀ e, (runOneTrial runner trial).error = some e ↔
      trialTry (runner trial).1 = .error e) ∧
    (∀ a c s, trialTry (runner trial).1 = .ok (a, c, s) →
      (runOneTrial runner trial).error = none ∧
      (a = none → (runOneTrial runner trial).success = false)) := by
  rcases hrt : runner trial with ⟨o, tms⟩
  cases ht : trialTry o with
  | error e =>
    refine ⟨rfl, ?_, ?_, ?_⟩
    · intro _
      simp [runOneTrial, hrt, ht]
    · intro e'
      simp [runOneTrial, hrt, ht]
    · intro a c s habs
      cases habs
  | ok v =>
    obtain ⟨a₀, c₀, s₀⟩ := v
    have hmem : a₀ = none ∨ a₀ = some "A".data ∨ a₀ = some "B".data ∨
        a₀ = some "C".data := by
      cases o with
      | error e => rw [trialTry] at ht; cases ht
      | ok raw => exact trialBody_answer (by rw [trialTry] at ht; exact ht)
    refine ⟨rfl, ?_, ?_, ?_⟩
    · intro hsucc
      simp only [runOneTrial, hrt, ht] at hsucc ⊢
      rcases hmem with h0 | h0 | h0 | h0 <;> simp_all
    · intro e'
      simp [runOneTrial, hrt, ht]
    · intro a c s heq
      obtain ⟨ha, _, _⟩ : a₀ = a ∧ c₀ = c ∧ s₀ = s := by
        simpa using heq
      constructor
      · simp [runOneTrial, hrt, ht]
      · intro hanone
        simp only [runOneTrial, hrt, ht]
        rw [ha, hanone]
        simp

/-- Witness for C6: a reply that is an object but names the invalid letter
`D` yields a result with `error` absent, `success = false` and no
prediction. -/
theorem trial_result_invariants_witness :
    (runOneTrial runnerNoLetter trialT0).error = none ∧
    (runOneTrial runnerNoLetter trialT0).success = false ∧
    (runOneTrial runnerNoLetter trialT0).prediction = none := by
  have htt : trialTry (runnerNoLetter trialT0).1 = .ok (none, none, []) := by
    with_unfolding_all rfl
  have h4 := (trial_result_invariants runnerNoLetter trialT0).2.2.2 none none [] htt
  have hsucc : (runOneTrial runnerNoLetter trialT0).success = false := h4.2 rfl
  exact ⟨h4.1, hsucc, (trial_result_invariants runnerNoLetter trialT0).2.1 hsucc⟩

/-- Claim C1: `run_trials` yields exactly one result per trial, in input
order, and a trial whose adapter call raised is recorded as a failed
result carrying the failure's description and no prediction, without
affecting the other trials. -/
theorem run_trials_isolates_failures (name model_id : Str)
    (runner : TrialAssets → Except Str Json × Nat) (trials : List TrialAssets) :
    ((run_trials name model_id runner trials).results.length = trials.length) ∧
    (∀ (i : Nat) (t : TrialAssets), trials[i]? = some t →
      (run_trials name model_id runner trials).results[i]? =
        some (runOneTrial runner t)) ∧
    (∀ (i : Nat) (t : TrialAssets) (e : Str) (ms : Nat),
      trials[i]? = some t → runner t = (.error e, ms) →
      (run_trials name model_id runner trials).results[i]? = some
        { trial_label := t.label, condition := t.condition, gold := t.correct_answer,
          prediction := none, confidence := none, reasoning := [],
          latency_ms := some ms, success := false, error := some e }) := by
  refine ⟨by simp [run_trials], ?_, ?_⟩
  · intro i t ht
    simp [run_trials, List.getElem?_map, ht]
  · intro i t e ms ht hr
    have hmap : (run_trials name model_id runner trials).results[i]? =
        some (runOneTrial runner t) := by
      simp [run_trials, List.getElem?_map, ht]
    rw [hmap]
    have : runOneTrial runner t =
        { trial_label := t.label, condition := t.condition, gold := t.correct_answer,
          prediction := none, confidence := none, reasoning := [],
          latency_ms := some ms, success := false, error := some e } := by
      simp [runOneTrial, hr, trialTry]
    rw [this]

/-- Witness for C1: with an adapter that raises `boom`, the single trial
is recorded as the failed result with the error description. -/
theorem run_trials_isolates_failures_witness :
    (run_trials "m".data "id".data runnerBoom [trialT0]).results[0]? = some
      { trial_label := trialT0.label, condition := trialT0.condition,
        gold := trialT0.correct_answer, prediction := none, confidence := none,
        reasoning := [], latency_ms := some 7, success := false,
        error := some "boom".data } :=
  (run_trials_isolates_failures "m".data "id".data runnerBoom [trialT0]).2.2
    0 trialT0 "boom".data 7 rfl rfl

/-- Claim C10: `parse_json_response` accepts JSON that is not an object
(here a bare array), and a trial whose reply is such a value is recorded
as a failed result (`success = false`, no prediction, `error` populated
with the raised failure's description) while the remaining trials are
still processed. -/
theorem non_object_reply_failed_result :
    parse_json_response "[1, 2]".data = .ok (Json.arr [Json.num 1, Json.num 2]) ∧
    ((run_trials "m".data "id".data
        (fun _ => (parse_json_response "[1, 2]".data, 3)) [trialT0, trialT1]).results.map
      (fun r => (r.trial_label, r.success, r.prediction, r.error))) =
      [("t1".data, false, none, some "AttributeError: object has no attribute get".data),
       ("t2".data, false, none, some "AttributeError: object has no attribute get".data)] := by
  constructor
  · with_unfolding_all rfl
  · with_unfolding_all rfl

/-! ### C7: what the latency bracket measures -/

/-- Counterexample to C7 as stated: with a provider call of 5 ms and a
parse step of 7 ms, the recorded latency is 12 ms — the timing bracket of
`run_trials` closes only after `parse_json_response` has run inside the
adapter — so `latency_ms` is not the elapsed time of the `Invoke` step
alone. -/
theorem latency_includes_parse_cex :
    (runOneTrial (openaiCallTimed createC7 true 7) trialT0).latency_ms = some 12 ∧
    (runOneTrial (openaiCallTimed createC7 true 7) trialT0).latency_ms ≠ some 5 := by
  constructor
  · with_unfolding_all rfl
  · intro h
    have h12 : (runOneTrial (openaiCallTimed createC7 true 7) trialT0).latency_ms =
        some 12 := by with_unfolding_all rfl
    rw [h12] at h
    simp at h

/-- Claim C7 (amended): `latency_ms` records the elapsed wall-clock time
around the whole adapter call — the provider invocation(s), including a
fallback retry, plus the reply parsing that runs inside the adapter — and
is recorded on both the success and the failure path; the `Normalize`
step lies outside the bracket. -/
theorem latency_brackets_adapter_call
    (create : Bool → Except Str Str × Nat) (parseMs : Nat) (trial : TrialAssets) :
    (∀ msg t1, create true = (.ok msg, t1) →
      (runOneTrial (openaiCallTimed create true parseMs) trial).latency_ms =
        some (t1 + parseMs)) ∧
    (∀ e1 t1 e2 t2, create true = (.error e1, t1) → create false = (.error e2, t2) →
      (runOneTrial (openaiCallTimed create true parseMs) trial).latency_ms =
        some (t1 + t2)) ∧
    (∀ e1 t1 msg t2, create true = (.error e1, t1) → create false = (.ok msg, t2) →
      (runOneTrial (openaiCallTimed create true parseMs) trial).latency_ms =
        some (t1 + t2 + parseMs)) := by
  refine ⟨?_, ?_, ?_⟩
  · intro msg t1 h1
    rw [runOneTrial_latency]
    simp [openaiCallTimed, h1]
  · intro e1 t1 e2 t2 h1 h2
    rw [runOneTrial_latency]
    simp [openaiCallTimed, h1, h2]
  · intro e1 t1 msg t2 h1 h2
    rw [runOneTrial_latency]
    simp [openaiCallTimed, h1, h2]

/-- Witness for the amended C7 on both paths: a successful 5 ms call with
7 ms of parsing records 12 ms; a failing call (3 ms, then 4 ms retry)
records 7 ms. -/
theorem latency_brackets_adapter_call_witness :
    (runOneTrial (openaiCallTimed createC7 true 7) trialT0).latency_ms = some 12 ∧
    (runOneTrial (openaiCallTimed runnerBoomCreate true 7) trialT0).latency_ms =
      some 7 :=
  ⟨(latency_brackets_adapter_call createC7 7 trialT0).1
      "\x7b\"answer\": \"A\"\x7d".data 5 rfl,
   (latency_brackets_adapter_call runnerBoomCreate 7 trialT0).2.1
      "fail1".data 3 "fail2".data 4 rfl rfl⟩

/-! ### C9: the structured-output fallback retry -/

/-- Counterexample to C9 as stated: the first call fails with a timeout —
not a rejection of the structured-output request mode — yet the adapter
still retries once with structured mode disabled and returns the retry's
reply instead of propagating the timeout.  The `except Exception` handler
at run_llm_trials.py:237-242 does not inspect the failure's kind. -/
theorem openai_retries_on_any_failure_cex :
    (openaiCallTimed createTimeoutThenOk true 2 trialT0).1 =
      .ok (Json.obj [("answer".data, Json.str "B".data)]) ∧
    (openaiCallTimed createTimeoutThenOk true 2 trialT0).1 ≠
      .error "APITimeoutError: Request timed out".data := by
  constructor
  · with_unfolding_all rfl
  · intro h
    have hok : (openaiCallTimed createTimeoutThenOk true 2 trialT0).1 =
        .ok (Json.obj [("answer".data, Json.str "B".data)]) := by
      with_unfolding_all rfl
    rw [hok] at h
    cases h

/-- Claim C9 (amended): with structured mode enabled, any failure of the
first provider call — whatever its kind — triggers exactly one retry with
structured mode disabled, whose outcome (parsed reply or propagated
failure) becomes the adapter's result; a successful first call is parsed
directly; and with structured mode disabled every failure propagates
immediately with no retry. -/
theorem openai_fallback_retry (create : Bool → Except Str Str × Nat)
    (parseMs : Nat) (trial : TrialAssets) :
    (∀ msg t1, create true = (.ok msg, t1) →
      openaiCallTimed create true parseMs trial =
        (parse_json_response msg, t1 + parseMs)) ∧
    (∀ e1 t1 msg t2, create true = (.error e1, t1) → create false = (.ok msg, t2) →
      openaiCallTimed create true parseMs trial =
        (parse_json_response msg, t1 + t2 + parseMs)) ∧
    (∀ e1 t1 e2 t2, create true = (.error e1, t1) → create false = (.error e2, t2) →
      openaiCallTimed create true parseMs trial = (.error e2, t1 + t2)) ∧
    (∀ e t1, create false = (.error e, t1) →
      openaiCallTimed create false parseMs trial = (.error e, t1)) := by
  refine ⟨?_, ?_, ?_, ?_⟩
  · intro msg t1 h1
    simp [openaiCallTimed, h1]
  · intro e1 t1 msg t2 h1 h2
    simp [openaiCallTimed, h1, h2]
  · intro e1 t1 e2 t2 h1 h2
    simp [openaiCallTimed, h1, h2]
  · intro e t1 h1
    simp [openaiCallTimed, h1]

/-- Witness for the amended C9: the timeout-then-success provider yields
the retry's parsed reply, and with structured mode disabled the failing
provider's error propagates. -/
theorem openai_fallback_retry_witness :
    openaiCallTimed createTimeoutThenOk true 2 trialT0 =
      (parse_json_response "\x7b\"answer\": \"B\"\x7d".data, 3 + 4 + 2) ∧
    openaiCallTimed runnerBoomCreate false 2 trialT0 =
      (.error "fail2".data, 4) :=
  ⟨(openai_fallback_retry createTimeoutThenOk 2 trialT0).2.1
      "APITimeoutError: Request timed out".data 3 "\x7b\"answer\": \"B\"\x7d".data 4 rfl rfl,
   (openai_fallback_retry runnerBoomCreate 2 trialT0).2.2.2 "fail2".data 4 rfl⟩

/-! ### C5: determinism of discovery and the trial cap -/

theorem discoverGo_content_only (c : Str → Option Str) (p1 p2 : List Str)
    (root : Str) (maxt : Option Nat) : ∀ (ms : List Str) (k : Nat),
    discoverGo ⟨p1, c⟩ root maxt ms k = discoverGo ⟨p2, c⟩ root maxt ms k := by
  intro ms
  induction ms with
  | nil => intro k; rfl
  | cons mf rest ih =>
    intro k
    simp only [discoverGo]
    have hpm : processMeta ⟨p1, c⟩ root mf = processMeta ⟨p2, c⟩ root mf := rfl
    rw [← hpm]
    cases processMeta ⟨p1, c⟩ root mf with
    | error e => rfl
    | ok t =>
      simp only [bind, Except.bind]
      rw [ih (k + 1)]

theorem discoverGo_capped (fs : FS) (root : Str) :
    ∀ (ms : List Str) (k n : Nat) (l : List TrialAssets),
      discoverGo fs root none ms k = .ok l →
      discoverGo fs root (some n) ms k =
        .ok (l.take (if k < n then n - k else 1)) := by
  intro ms
  induction ms with
  | nil =>
    intro k n l h
    simp only [discoverGo, Except.ok.injEq] at h
    simp [discoverGo, ← h]
  | cons mf rest ih =>
    intro k n l h
    simp only [discoverGo] at h ⊢
    cases hp : processMeta fs root mf with
    | error e => rw [hp] at h; cases h
    | ok t =>
      rw [hp] at h
      simp only [bind, Except.bind] at h ⊢
      have hcapn : capReached none (k + 1) = false := rfl
      rw [hcapn] at h
      simp only [Bool.false_eq_true, if_false] at h
      cases hr : discoverGo fs root none rest (k + 1) with
      | error e => rw [hr] at h; cases h
      | ok ts =>
        rw [hr] at h
        simp only [pure, Except.pure, Except.ok.injEq] at h
        subst h
        by_cases hkn : n ≤ k + 1
        · have hcap : capReached (some n) (k + 1) = true := by
            simp [capReached, hkn]
          rw [hcap]
          have htake : (if k < n then n - k else 1) = 1 := by
            split <;> omega
          simp [htake, pure, Except.pure]
        · have hcap : capReached (some n) (k + 1) = false := by
            simp [capReached]
            omega
          rw [hcap]
          simp only [Bool.false_eq_true, if_false]
          rw [ih (k + 1) n ts hr]
          have h1 : k + 1 < n := by omega
          have h2 : k < n := by omega
          simp only [h1, if_true, h2, pure, Except.pure]
          have h3 : n - k = (n - (k + 1)) + 1 := by omega
          rw [h3, List.take_succ_cons]

/-- Claim C5 (amended): discovery is deterministic — the trials produced
depend only on the set (not the enumeration order) of metadata paths and
on the file contents, thanks to the lexicographic sort — and a cap
`N ≥ 1` returns exactly the first `N` trials of that order (all of them
when fewer exist); but because the cap is checked only *after* a trial is
appended, `N = 0` still returns the first trial when one exists, rather
than none. -/
theorem discover_deterministic_capped :
    (∀ (paths₁ paths₂ : List Str) (content : Str → Option Str) (root : Str)
        (maxt : Option Nat), paths₁.Perm paths₂ →
      discover_trials ⟨paths₁, content⟩ root maxt =
        discover_trials ⟨paths₂, content⟩ root maxt) ∧
    (∀ (fs : FS) (root : Str) (l : List TrialAssets) (n : Nat),
      discover_trials fs root none = .ok l → 1 ≤ n →
      discover_trials fs root (some n) = .ok (l.take n)) ∧
    (∀ (fs : FS) (root : Str) (l : List TrialAssets),
      discover_trials fs root none = .ok l →
      discover_trials fs root (some 0) = .ok (l.take 1)) := by
  refine ⟨?_, ?_, ?_⟩
  · intro p1 p2 content root maxt hperm
    unfold discover_trials
    have hsort : sortPaths (FS.metaPaths ⟨p1, content⟩) =
        sortPaths (FS.metaPaths ⟨p2, content⟩) := sortPaths_perm_eq hperm
    rw [hsort]
    exact discoverGo_content_only content p1 p2 root maxt _ 0
  · intro fs root l n h hn
    have := discoverGo_capped fs root (sortPaths fs.metaPaths) 0 n l h
    rwa [if_pos (by omega), Nat.sub_zero] at this
  · intro fs root l h
    have := discoverGo_capped fs root (sortPaths fs.metaPaths) 0 0 l h
    rwa [if_neg (by omega)] at this

theorem discover_fsOne : discover_trials fsOne "Trials".data none = .ok [trialOne] := by
  with_unfolding_all rfl

/-- Counterexample to C5 as stated: with exactly one trial on disk and the
cap `N = 0`, `discover_trials` returns that one trial — the cap is tested
only after the first append — not the empty list the claim requires. -/
theorem discover_cap_zero_cex :
    discover_trials fsOne "Trials".data (some 0) = .ok [trialOne] ∧
    discover_trials fsOne "Trials".data (some 0) ≠ .ok [] := by
  have h : discover_trials fsOne "Trials".data (some 0) = .ok [trialOne] := by
    with_unfolding_all rfl
  refine ⟨h, ?_⟩
  intro hh
  rw [h] at hh
  cases Except.ok.inj hh

/-- Witness for the amended C5: determinism under re-enumeration of the
same directory, the cap `N = 1` on a one-trial tree, and the `N = 0`
behaviour, all at concrete inputs. -/
theorem discover_deterministic_capped_witness :
    (discover_trials ⟨["Trials/t1/Metadata.json".data, "x".data],
        oneTrialContent metaTextOne⟩ "Trials".data none =
      discover_trials ⟨["x".data, "Trials/t1/Metadata.json".data],
        oneTrialContent metaTextOne⟩ "Trials".data none) ∧
    discover_trials fsOne "Trials".data (some 1) = .ok ([trialOne].take 1) ∧
    discover_trials fsOne "Trials".data (some 0) = .ok ([trialOne].take 1) :=
  ⟨discover_deterministic_capped.1 _ _ (oneTrialContent metaTextOne) "Trials".data
      none (List.Perm.swap _ _ _),
   discover_deterministic_capped.2.1 fsOne "Trials".data [trialOne] 1
      discover_fsOne (le_refl 1),
   discover_deterministic_capped.2.2 fsOne "Trials".data [trialOne] discover_fsOne⟩

/-! ### C4: the `correct_answer` field and the no-correct-target failure -/

/-- Counterexample to C4 as stated: metadata whose correct target carries
the id `z` loads without any failure, producing a trial asset whose
`correct_answer` is `Z` — not one of `A`, `B`, `C`.  The loader
uppercases the id (run_llm_trials.py:145) but never validates it. -/
theorem discover_correct_answer_unvalidated_cex :
    Except.map (List.map TrialAssets.correct_answer)
      (discover_trials fsZ "Trials".data none) = .ok [['Z']] ∧
    ¬ (['Z'] = "A".data ∨ ['Z'] = "B".data ∨ ['Z'] = "C".data) := by
  constructor
  · with_unfolding_all rfl
  · decide

/-- Claim C4 (amended): a loaded trial's `correct_answer` is the
uppercased string form of the id of the first target flagged correct —
which lies in the letter set A, B, C whenever that id is a letter `a`/`b`/`c` of
either case, but is not otherwise validated — and loading a metadata file
in which no target is flagged correct raises
`No correct target found in <file>`. -/
theorem discover_correct_answer_amended :
    (∀ (fs : FS) (root mf : Str) (t : TrialAssets),
      processMeta fs root mf = .ok t →
      ∃ text meta ts v, fs.content mf = some text ∧ json_loads text = .ok meta ∧
        targetsOf meta = .ok ts ∧ findCorrectTarget ts = .ok (some v) ∧
        t.correct_answer = pyUpper (pyStr v)) ∧
    (∀ (v : Json),
      (pyStr v = "a".data ∨ pyStr v = "b".data ∨ pyStr v = "c".data ∨
       pyStr v = "A".data ∨ pyStr v = "B".data ∨ pyStr v = "C".data) →
      (pyUpper (pyStr v) = "A".data ∨ pyUpper (pyStr v) = "B".data ∨
       pyUpper (pyStr v) = "C".data)) ∧
    (∀ (fs : FS) (root mf text : Str) (meta : Json) (c : Str) (ts : List Json),
      fs.content mf = some text → json_loads text = .ok meta →
      conditionOf meta = .ok c → targetsOf meta = .ok ts →
      findCorrectTarget ts = .ok none →
      processMeta fs root mf = .error ("No correct target found in ".data ++ mf)) := by
  refine ⟨?_, ?_, ?_⟩
  · intro fs root mf t h
    unfold processMeta at h
    cases h0 : fs.content mf with
    | none => rw [h0] at h; cases h
    | some text =>
      rw [h0] at h
      simp only [bind, Except.bind] at h
      cases h1 : json_loads text with
      | error e => rw [h1] at h; cases h
      | ok meta =>
        rw [h1] at h
        dsimp only at h
        cases h2 : conditionOf meta with
        | error e => rw [h2] at h; cases h
        | ok cond =>
          rw [h2] at h
          dsimp only at h
          cases h3 : targetsOf meta with
          | error e => rw [h3] at h; cases h
          | ok ts =>
            rw [h3] at h
            dsimp only at h
            cases h4 : findCorrectTarget ts with
            | error e => rw [h4] at h; cases h
            | ok vOpt =>
              rw [h4] at h
              dsimp only at h
              cases vOpt with
              | none => cases h
              | some v =>
                refine ⟨text, meta, ts, v, rfl, h1, h3, h4, ?_⟩
                cases h5 : read_image fs (pathJoin (pathParent mf)
                    "1_Reference_Front.jpg".data) with
                | error e => rw [h5] at h; cases h
                | ok rf =>
                  rw [h5] at h
                  dsimp only at h
                  cases h6 : read_image fs (pathJoin (pathParent mf)
                      "2_Reference_Back.jpg".data) with
                  | error e => rw [h6] at h; cases h
                  | ok rb =>
                    rw [h6] at h
                    dsimp only at h
                    cases h7 : read_image fs (pathJoin (pathParent mf)
                        "3_Target_A.jpg".data) with
                    | error e => rw [h7] at h; cases h
                    | ok cA =>
                      rw [h7] at h
                      dsimp only at h
                      cases h8 : read_image fs (pathJoin (pathParent mf)
                          "3_Target_B.jpg".data) with
                      | error e => rw [h8] at h; cases h
                      | ok cB =>
                        rw [h8] at h
                        dsimp only at h
                        cases h9 : read_image fs (pathJoin (pathParent mf)
                            "3_Target_C.jpg".data) with
                        | error e => rw [h9] at h; cases h
                        | ok cC =>
                          rw [h9] at h
                          simp only [pure, Except.pure, Except.ok.injEq] at h
                          rw [← h]
  · intro v hmem
    rcases hmem with h | h | h | h | h | h <;> rw [h] <;> simp [pyUpper]
  · intro fs root mf text meta c ts h0 h1 h2 h3 h4
    unfold processMeta
    rw [h0]
    simp only [bind, Except.bind]
    rw [h1]
    dsimp only
    rw [h2]
    dsimp only
    rw [h3]
    dsimp only
    rw [h4]

/-- Witness for the amended C4: on `fsOne` the loaded `correct_answer`
is the uppercase of the correct target id `b`, in range; and on
`fsNoCorrect` (no target flagged correct) processing raises the
`No correct target found` failure. -/
theorem discover_correct_answer_amended_witness :
    (∃ text meta ts v,
      fsOne.content "Trials/t1/Metadata.json".data = some text ∧
      json_loads text = .ok meta ∧ targetsOf meta = .ok ts ∧
      findCorrectTarget ts = .ok (some v) ∧
      trialOne.correct_answer = pyUpper (pyStr v)) ∧
    (pyUpper (pyStr (Json.str "b".data)) = "A".data ∨
     pyUpper (pyStr (Json.str "b".data)) = "B".data ∨
     pyUpper (pyStr (Json.str "b".data)) = "C".data) ∧
    processMeta fsNoCorrect "Trials".data "Trials/t1/Metadata.json".data =
      .error ("No correct target found in ".data ++ "Trials/t1/Metadata.json".data) := by
  refine ⟨?_, ?_, ?_⟩
  · exact discover_correct_answer_amended.1 fsOne "Trials".data
      "Trials/t1/Metadata.json".data trialOne (by with_unfolding_all rfl)
  · exact discover_correct_answer_amended.2.1 (Json.str "b".data) (Or.inr (Or.inl rfl))
  · exact discover_correct_answer_amended.2.2 fsNoCorrect "Trials".data
      "Trials/t1/Metadata.json".data metaTextNoCorrect
      (Json.obj [("config".data, Json.obj []),
        ("targets".data, Json.arr [Json.obj [("id".data, Json.str "a".data),
          ("is_correct".data, Json.bool false)]])])
      "? | ? | ?".data
      [Json.obj [("id".data, Json.str "a".data), ("is_correct".data, Json.bool false)]]
      rfl (by with_unfolding_all rfl) (by with_unfolding_all rfl)
      (by with_unfolding_all rfl) (by with_unfolding_all rfl)

/-! ### C8: the report file is append-only up to trailing-whitespace
normalization -/

theorem pyLstrip_cons_ws {c : Char} (s : Str) (h : isPySpace c = true) :
    pyLstrip (c :: s) = pyLstrip s := by
  simp [pyLstrip, List.dropWhile_cons, h]

/-- Structure of any `append_report` output: the (normalized) prior
content, a newline, the new material with its trailing whitespace
stripped, and a final newline. -/
theorem append_report_structure (oldC : Option Str) (ts root pn : Str)
    (runs : List ModelRun) (Ex : Str)
    (hEx : (match oldC with | some s => pyRstrip s | none => reportHeader) = Ex)
    (h2 : pyLstrip Ex = Ex) (h3 : Ex ≠ []) :
    ∃ T, append_report oldC ts runs root pn = Ex ++ '\n' :: (T ++ ['\n']) ∧
      pyRstrip T = T ∧ T ≠ [] := by
  have hKdef : ∃ K r, joinWith '\n' ((("## Run ".data ++ ts) ::
      ("- Trials root: ".data ++ root) :: ("- Prompt: ".data ++ pn) :: [] ::
      runs.flatMap runSection)) = K ∧ K = ("## Run ".data ++ ts) ++ r := by
    obtain ⟨r, hr⟩ := joinWith_cons_exists '\n' ("## Run ".data ++ ts)
      (("- Trials root: ".data ++ root) :: ("- Prompt: ".data ++ pn) :: [] ::
        runs.flatMap runSection)
    exact ⟨_, r, rfl, hr⟩
  obtain ⟨K, r, hKeq, hKr⟩ := hKdef
  have hmem : ('#' : Char) ∈ K := by
    rw [hKr]
    exact List.mem_append_left _ (List.mem_append_left _ (by decide))
  have hKne : pyRstrip K ≠ [] := pyRstrip_ne_nil_of_mem hmem (by decide)
  have hcons : pyRstrip ('\n' :: K) = '\n' :: pyRstrip K :=
    pyRstrip_cons_of_ne_nil '\n' hKne
  have hconsne : pyRstrip ('\n' :: K) ≠ [] := by
    rw [hcons]; simp
  refine ⟨pyRstrip K, ?_, pyRstrip_idem K, hKne⟩
  have happ : append_report oldC ts runs root pn =
      pyStrip (joinWith '\n' (Ex :: (("## Run ".data ++ ts) ::
        ("- Trials root: ".data ++ root) :: ("- Prompt: ".data ++ pn) :: [] ::
        runs.flatMap runSection))) ++ ['\n'] := by
    unfold append_report
    rw [hEx]
    rfl
  rw [happ, joinWith_cons_cons, hKeq]
  rw [show pyStrip (Ex ++ '\n' :: K) =
      pyLstrip (pyRstrip (Ex ++ ('\n' :: K))) from rfl]
  rw [pyRstrip_append_of_ne_nil Ex hconsne]
  rw [pyLstrip_append_of_self _ h2 h3]
  rw [hcons]
  simp

/-- Claim C8 (amended): appending preserves the prior file content as a
byte-identical prefix whenever that content has no leading whitespace and
ends with exactly one newline after non-whitespace text — in particular
for any file `append_report` itself produced, so appending twice keeps
the first run's section byte-identical — and an absent file is created
with the document header before the section.  In general the prior
content's *trailing whitespace* is first normalized (`rstrip`), so a file
ending in extra blank lines is not preserved byte-for-byte. -/
theorem append_report_prefix_preserving :
    (∀ (E ts root pn : Str) (runs : List ModelRun),
      pyRstrip E = E → pyLstrip E = E → E ≠ [] →
      (E ++ ['\n']) <+: append_report (some (E ++ ['\n'])) ts runs root pn) ∧
    (∀ (ts root pn : Str) (runs : List ModelRun),
      reportHeader <+: append_report none ts runs root pn) ∧
    (∀ (ts ts₂ root root₂ pn pn₂ : Str) (runs runs₂ : List ModelRun),
      append_report none ts runs root pn <+:
        append_report (some (append_report none ts runs root pn)) ts₂ runs₂ root₂ pn₂) := by
  refine ⟨?_, ?_, ?_⟩
  · intro E ts root pn runs h1 h2 h3
    obtain ⟨T, happ, _, _⟩ := append_report_structure (some (E ++ ['\n'])) ts root pn
      runs E (by show pyRstrip (E ++ ['\n']) = E; rw [pyRstrip_append_ws E (by decide), h1]) h2 h3
    exact ⟨T ++ ['\n'], by rw [happ]; simp⟩
  · intro ts root pn runs
    obtain ⟨T, happ, _, _⟩ := append_report_structure none ts root pn runs
      reportHeader rfl (by decide) (by decide)
    exact ⟨'\n' :: (T ++ ['\n']), by rw [happ]⟩
  · intro ts ts₂ root root₂ pn pn₂ runs runs₂
    obtain ⟨T, happ, hT1, hT2⟩ := append_report_structure none ts root pn runs
      reportHeader rfl (by decide) (by decide)
    have hTne : pyRstrip T ≠ [] := by rw [hT1]; exact hT2
    have hr1 : append_report none ts runs root pn =
        (reportHeader ++ '\n' :: T) ++ ['\n'] := by
      rw [happ]; simp
    have hE'r : pyRstrip (reportHeader ++ '\n' :: T) = reportHeader ++ '\n' :: T := by
      rw [show reportHeader ++ '\n' :: T = (reportHeader ++ ['\n']) ++ T by simp]
      rw [pyRstrip_append_of_ne_nil _ hTne, hT1]
    have hE'l : pyLstrip (reportHeader ++ '\n' :: T) = reportHeader ++ '\n' :: T :=
      pyLstrip_append_of_self _ (by decide) (by decide)
    have hE'ne : reportHeader ++ '\n' :: T ≠ [] := by simp
    obtain ⟨T₂, happ₂, _, _⟩ := append_report_structure
      (some (append_report none ts runs root pn)) ts₂ root₂ pn₂ runs₂
      (reportHeader ++ '\n' :: T)
      (by show pyRstrip (append_report none ts runs root pn) = reportHeader ++ '\n' :: T; rw [hr1, pyRstrip_append_ws _ (by decide), hE'r]) hE'l hE'ne
    exact ⟨T₂ ++ ['\n'], by rw [happ₂, hr1]; simp⟩

/-- Counterexample to C8 as stated: a prior report file ending in a blank
line (two trailing newlines) is not preserved byte-for-byte — the
`rstrip` at run_llm_trials.py:336 removes the blank line before the new
section is appended. -/
theorem append_report_trailing_ws_cex :
    ¬ ("# Old\n\n".data <+:
        append_report (some "# Old\n\n".data) "TS".data [] "R".data "P".data) := by
  decide

/-- Witness for the amended C8: a well-formed one-line prior file is kept
as a byte-identical prefix, the header is written on first creation, and
a double append preserves the first output, at concrete inputs. -/
theorem append_report_prefix_preserving_witness :
    ("# X\n".data <+:
      append_report (some "# X\n".data) "T".data [] "R".data "P".data) ∧
    (reportHeader <+: append_report none "T".data [] "R".data "P".data) ∧
    (append_report none "T".data [] "R".data "P".data <+:
      append_report (some (append_report none "T".data [] "R".data "P".data))
        "T2".data [] "R2".data "P2".data) :=
  ⟨append_report_prefix_preserving.1 "# X".data "T".data "R".data "P".data []
      (by decide) (by decide) (by decide),
   append_report_prefix_preserving.2.1 "T".data "R".data "P".data [],
   append_report_prefix_preserving.2.2 "T".data "T2".data "R".data "R2".data
      "P".data "P2".data [] []⟩

/-! ### C3: `parse_json_response` recovery -/

theorem isPrefixOf_append_self (a b : Str) : a.isPrefixOf (a ++ b) = true := by
  rw [List.isPrefixOf_iff_prefix]
  exact List.prefix_append a b

theorem pyRstrip_ne_nil_of_pyStrip {s : Str} (h : pyStrip s ≠ []) :
    pyRstrip s ≠ [] := by
  intro hr
  exact h (by rw [pyStrip, hr]; rfl)

theorem pyStrip_tick_wrapped (X : Str) :
    pyStrip (ticks ++ X ++ ticks) = ticks ++ X ++ ticks := by
  have hr : pyRstrip (ticks ++ X ++ ticks) = ticks ++ X ++ ticks := by
    rw [show ticks ++ X ++ ticks =
      (ticks ++ X ++ [tickChar, tickChar]) ++ [tickChar] by simp [ticks]]
    rw [pyRstrip_append_of_ne_nil _ (by decide)]
    rw [show pyRstrip [tickChar] = [tickChar] by decide]
  have hl : pyLstrip (ticks ++ X ++ ticks) = ticks ++ X ++ ticks := by
    rw [show ticks ++ X ++ ticks =
      tickChar :: ([tickChar, tickChar] ++ X ++ ticks) by simp [ticks]]
    exact pyLstrip_cons_of_not _ (by decide)
  rw [pyStrip, hr, hl]

theorem pyStrip_cons_newline {R : Str} (h1 : pyRstrip R = R) (h2 : R ≠ []) :
    pyStrip ('\n' :: R) = pyLstrip R := by
  rw [pyStrip]
  rw [pyRstrip_cons_of_ne_nil _ (by rw [h1]; exact h2)]
  rw [h1]
  exact pyLstrip_cons_ws R (by decide)

theorem stripFences_fenced_eq {M : Str} (hM : tickChar ∉ M) :
    stripFences (ticks ++ M ++ ticks) = dropJsonTag (pyStrip M) := by
  have hpre : ticks.isPrefixOf (ticks ++ M ++ ticks) = true := by
    rw [List.append_assoc]
    exact isPrefixOf_append_self _ _
  unfold stripFences
  rw [pyStrip_tick_wrapped]
  rw [if_pos hpre]
  unfold takeFenceBlock
  rw [splitTicks_fenced hM]
  norm_num [List.getD]

theorem dropJsonTag_json (R : Str) :
    dropJsonTag ("json".data ++ '\n' :: R) = pyStrip ('\n' :: R) := by
  have htag : "json".data.isPrefixOf
      (pyLower ("json".data ++ '\n' :: R)) = true := by
    rw [pyLower, List.map_append]
    rw [show List.map Char.toLower "json".data = "json".data by decide]
    exact isPrefixOf_append_self _ _
  unfold dropJsonTag
  rw [if_pos htag]
  rw [show (4 : Nat) = "json".data.length from rfl, List.drop_left]

theorem dropJsonTag_notag {c : Str}
    (htag : "json".data.isPrefixOf (pyLower c) = false) : dropJsonTag c = c := by
  unfold dropJsonTag
  rw [htag]
  simp

theorem stripFences_fenced_tag {body : Str} (hnb : tickChar ∉ body)
    (hne : pyStrip body ≠ []) :
    stripFences (ticks ++ ("json".data ++ '\n' :: body ++ ['\n']) ++ ticks) =
      pyStrip body := by
  have hM : tickChar ∉ ("json".data ++ '\n' :: body ++ ['\n']) := by
    intro hm
    rcases List.mem_append.mp hm with h | h
    · rcases List.mem_append.mp h with h' | h'
      · exact absurd h' (by decide)
      · rcases List.mem_cons.mp h' with h'' | h''
        · exact absurd h'' (by decide)
        · exact hnb h''
    · exact absurd h (by decide)
  have hRb : pyRstrip body ≠ [] := pyRstrip_ne_nil_of_pyStrip hne
  have hcons : pyRstrip ('\n' :: body) = '\n' :: pyRstrip body :=
    pyRstrip_cons_of_ne_nil _ hRb
  have hM1 : pyRstrip ("json".data ++ '\n' :: body ++ ['\n']) =
      "json".data ++ '\n' :: pyRstrip body := by
    rw [show "json".data ++ '\n' :: body ++ ['\n'] =
      ("json".data ++ ('\n' :: body)) ++ ['\n'] by simp]
    rw [pyRstrip_append_ws _ (by decide)]
    rw [pyRstrip_append_of_ne_nil _ (by rw [hcons]; simp)]
    rw [hcons]
  have hM2 : pyStrip ("json".data ++ '\n' :: body ++ ['\n']) =
      "json".data ++ '\n' :: pyRstrip body := by
    rw [pyStrip, hM1]
    exact pyLstrip_append_of_self _ (by decide) (by decide)
  have hFin : pyStrip ('\n' :: pyRstrip body) = pyStrip body := by
    rw [pyStrip_cons_newline (pyRstrip_idem body) hRb]
    rfl
  rw [stripFences_fenced_eq hM, hM2, dropJsonTag_json, hFin]

theorem stripFences_fenced_notag {body : Str} (hnb : tickChar ∉ body)
    (hne : pyStrip body ≠ [])
    (htag : "json".data.isPrefixOf (pyLower (pyStrip body)) = false) :
    stripFences (ticks ++ ('\n' :: body ++ ['\n']) ++ ticks) = pyStrip body := by
  have hM : tickChar ∉ ('\n' :: body ++ ['\n']) := by
    intro hm
    rcases List.mem_append.mp hm with h | h
    · rcases List.mem_cons.mp h with h' | h'
      · exact absurd h' (by decide)
      · exact hnb h'
    · exact absurd h (by decide)
  have hRb : pyRstrip body ≠ [] := pyRstrip_ne_nil_of_pyStrip hne
  have hcons : pyRstrip ('\n' :: body) = '\n' :: pyRstrip body :=
    pyRstrip_cons_of_ne_nil _ hRb
  have hM1 : pyRstrip ('\n' :: body ++ ['\n']) = '\n' :: pyRstrip body := by
    rw [show ('\n' :: body ++ ['\n'] : Str) = ('\n' :: body) ++ ['\n'] by simp]
    rw [pyRstrip_append_ws _ (by decide)]
    exact hcons
  have hM2 : pyStrip ('\n' :: body ++ ['\n']) = pyStrip body := by
    rw [pyStrip, hM1]
    rw [pyLstrip_cons_ws _ (by decide)]
    rfl
  rw [stripFences_fenced_eq hM, hM2, dropJsonTag_notag htag]

/-- Claim C3: `parse_json_response` first strips a surrounding
triple-backtick fence (with or without a leading `json` language tag),
then narrows to the span between the first opening brace and the last
closing brace when both occur, then parses as JSON — so it recovers the
embedded object from fenced model output and from prose-wrapped output,
and it yields the `JSONDecodeError`-style failure when the narrowed text
is not valid JSON. -/
theorem parse_json_response_recovers :
    (∀ t, ticks.isPrefixOf (pyStrip t) = false →
      parse_json_response t = json_loads (narrowBraces (pyStrip t))) ∧
    (∀ body, tickChar ∉ body → pyStrip body ≠ [] →
      parse_json_response (ticks ++ ("json".data ++ '\n' :: body ++ ['\n']) ++ ticks) =
        json_loads (narrowBraces (pyStrip body))) ∧
    (∀ body, tickChar ∉ body → pyStrip body ≠ [] →
      "json".data.isPrefixOf (pyLower (pyStrip body)) = false →
      parse_json_response (ticks ++ ('\n' :: body ++ ['\n']) ++ ticks) =
        json_loads (narrowBraces (pyStrip body))) ∧
    (parse_json_response "Here you go: \x7b\"answer\": \"C\"\x7d Thanks!".data =
      .ok (Json.obj [("answer".data, Json.str "C".data)])) ∧
    (parse_json_response "I would pick A because it matches.".data =
      .error "Expecting value".data) := by
  refine ⟨?_, ?_, ?_, ?_, ?_⟩
  · intro t h
    unfold parse_json_response stripFences
    simp [h]
  · intro body h1 h2
    unfold parse_json_response
    rw [stripFences_fenced_tag h1 h2]
  · intro body h1 h2 h3
    unfold parse_json_response
    rw [stripFences_fenced_notag h1 h2 h3]
  · with_unfolding_all rfl
  · with_unfolding_all rfl

/-- Witness for C3 at concrete inputs: prose-wrapped, tag-fenced and
bare-fenced replies all reduce to parsing the narrowed body. -/
theorem parse_json_response_recovers_witness :
    parse_json_response "ok: \x7b\"answer\": \"A\"\x7d end".data =
      json_loads (narrowBraces (pyStrip "ok: \x7b\"answer\": \"A\"\x7d end".data)) ∧
    parse_json_response (ticks ++ ("json".data ++ '\n' ::
        "\x7b\"answer\": \"B\"\x7d".data ++ ['\n']) ++ ticks) =
      json_loads (narrowBraces (pyStrip "\x7b\"answer\": \"B\"\x7d".data)) ∧
    parse_json_response (ticks ++ ('\n' ::
        "\x7b\"answer\": \"C\"\x7d".data ++ ['\n']) ++ ticks) =
      json_loads (narrowBraces (pyStrip "\x7b\"answer\": \"C\"\x7d".data)) :=
  ⟨parse_json_response_recovers.1 "ok: \x7b\"answer\": \"A\"\x7d end".data (by decide),
   parse_json_response_recovers.2.1 "\x7b\"answer\": \"B\"\x7d".data (by decide) (by decide),
   parse_json_response_recovers.2.2.1 "\x7b\"answer\": \"C\"\x7d".data (by decide)
      (by decide) (by decide)⟩

end SpatialLab
